import Mathlib

/-!
# blueplanet-screencapture: the task pipelines of `main.go`

A shallow embedding of `src/main.go`.  The browser-automation library
(`chromedp`, `cdproto`) is an outside collaborator: its actions are
constructors of `Action`, its protocol commands are constructors of `Command`,
and its answers are fields of `Cdp` and `World`.  Go strings are Lean strings,
`int64` and `time.Duration` are integers reduced by `wrapInt64`, and a
`float64` is a `Float64` (a rational number, an infinity or NaN).
-/

namespace Screencapture

/-! ## Strings -/

/-- Whether the character list `p` is an initial segment of `s`. -/
def startsWith : List Char → List Char → Bool
  | _, [] => true
  | [], _ :: _ => false
  | a :: s, b :: p => a == b && startsWith s p

/-- Whether `p` occurs in `s` at some offset. -/
def occursIn : List Char → List Char → Bool
  | [], p => startsWith [] p
  | a :: s, p => startsWith (a :: s) p || occursIn s p

/-- Go `strings.Contains(s, substr)`. -/
def Contains (s substr : String) : Bool :=
  occursIn s.data substr.data

/-! ## Durations -/

/-- Reduction of an integer to the `int64` range (two's complement). -/
def wrapInt64 (z : Int) : Int :=
  (z + 2 ^ 63) % 2 ^ 64 - 2 ^ 63

/-- Go `time.Second`, in nanoseconds. -/
def Second : Int := 1000000000

/-! ## Tasks -/

/-- Query options of `chromedp` that the source passes. -/
inductive QueryOption where
  | ByQuery
  | NodeVisible
  deriving DecidableEq, Repr

/-- The `chromedp` actions that the source builds.  `ActionFunc quality` is
the closure of `fullScreenshot` (lines 109-142 and, token for token the same,
lines 149-182), which captures `quality` and `res`. -/
inductive Action where
  | Navigate (urlstr : String)
  | WaitVisible (sel : String) (opts : List QueryOption)
  | SendKeys (sel : String) (v : String) (opts : List QueryOption)
  | Sleep (d : Int)
  | Screenshot (sel : String) (opts : List QueryOption)
  | ActionFunc (quality : Int)
  deriving DecidableEq, Repr

/-- Go `chromedp.Tasks`. -/
abbrev Tasks := List Action

/-- Whether an action holds the output buffer `res` and stores into it:
`chromedp.Screenshot(sel, res, ...)` and the closure, which assigns `*res`. -/
def Action.writesRes : Action → Bool
  | .Screenshot _ _ => true
  | .ActionFunc _ => true
  | _ => false

/-- Whether an action types text into the page. -/
def Action.isSendKeys : Action → Bool
  | .SendKeys _ _ _ => true
  | _ => false

/-- Go `elementScreenshot(urlstr, sel, res)`. -/
def elementScreenshot (urlstr : String) (sel : String) : Tasks :=
  if Contains urlstr "https" then
    [ .Navigate urlstr,
      .WaitVisible "input[type='text']" [.ByQuery],
      .SendKeys "input[type='text']" "admin" [.ByQuery],
      .WaitVisible "input[type='password']" [.ByQuery],
      .SendKeys "input[type='password']" "adminpw\t\t\n" [.ByQuery],
      .WaitVisible sel [.ByQuery],
      .Sleep (2 * Second),
      .Screenshot sel [.NodeVisible, .ByQuery] ]
  else
    [ .Navigate urlstr,
      .WaitVisible sel [.ByQuery],
      .Sleep (2 * Second),
      .Screenshot sel [.NodeVisible, .ByQuery] ]

/-- Go `fullScreenshot(urlstr, sel, quality, res)`. -/
def fullScreenshot (urlstr : String) (sel : String) (quality : Int) : Tasks :=
  if Contains urlstr "https" then
    [ .Navigate urlstr,
      .WaitVisible "input[type='text']" [.ByQuery],
      .SendKeys "input[type='text']" "admin" [.ByQuery],
      .WaitVisible "input[type='password']" [.ByQuery],
      .SendKeys "input[type='password']" "adminpw\t\t\n" [.ByQuery],
      .WaitVisible sel [.ByQuery],
      .Sleep (2 * Second),
      .ActionFunc quality ]
  else
    [ .Navigate urlstr,
      .WaitVisible sel [.ByQuery],
      .Sleep (2 * Second),
      .ActionFunc quality ]

/-- The four login steps, in the order the secure branches list them. -/
def loginActions : Tasks :=
  [ .WaitVisible "input[type='text']" [.ByQuery],
    .SendKeys "input[type='text']" "admin" [.ByQuery],
    .WaitVisible "input[type='password']" [.ByQuery],
    .SendKeys "input[type='password']" "adminpw\t\t\n" [.ByQuery] ]

/-! ## Numbers -/

/-- A Go `float64`: a finite value (every finite `float64` is a rational
number), an infinity, or NaN. -/
inductive Float64 where
  | finite (v : ℚ)
  | posInf
  | negInf
  | nan
  deriving DecidableEq

/-- Go `math.Ceil(x)`: the least integer value not below `x`, with
`Ceil(±Inf) = ±Inf` and `Ceil(NaN) = NaN`.  On a finite `float64` the result is
exact. -/
def Ceil : Float64 → Float64
  | .finite v => .finite ((⌈v⌉ : Int) : ℚ)
  | x => x

/-- Go conversion `int64(f)` of a `float64`: the fraction is discarded
(toward zero); when the value is not representable in `int64` the conversion
succeeds with a value that depends on the implementation, here `undef` reduced
to `int64`. -/
def int64 (undef : Int) : Float64 → Int
  | .finite v =>
    let t : Int := if 0 ≤ v then ⌊v⌋ else ⌈v⌉
    if -2 ^ 63 ≤ t ∧ t < 2 ^ 63 then t else wrapInt64 undef
  | _ => wrapInt64 undef

/-! ## The browser protocol -/

/-- A Go `error` that is not nil. -/
abbrev Error := String

/-- A Go `[]byte`. -/
abbrev Bytes := List Nat

/-- The `dom.Rect` answered by the layout-metrics query (the content size). -/
structure Rect where
  X : Float64
  Y : Float64
  Width : Float64
  Height : Float64
  deriving DecidableEq

/-- The `emulation.OrientationType` values. -/
inductive OrientationType where
  | PortraitPrimary
  | PortraitSecondary
  | LandscapePrimary
  | LandscapeSecondary
  deriving DecidableEq

/-- The `emulation.ScreenOrientation` record (`Type`, `Angle`). -/
structure ScreenOrientation where
  Typ : OrientationType
  Angle : Int
  deriving DecidableEq

/-- The request built by `emulation.SetDeviceMetricsOverride(width, height,
deviceScaleFactor, mobile).WithScreenOrientation(o)`. -/
structure SetDeviceMetricsOverrideParams where
  Width : Int
  Height : Int
  DeviceScaleFactor : Float64
  Mobile : Bool
  ScreenOrientation : ScreenOrientation
  deriving DecidableEq

/-- The `page.Viewport` record. -/
structure Viewport where
  X : Float64
  Y : Float64
  Width : Float64
  Height : Float64
  Scale : Float64
  deriving DecidableEq

/-- The request built by `page.CaptureScreenshot().WithQuality(q).WithClip(v)`. -/
structure CaptureScreenshotParams where
  Quality : Int
  Clip : Viewport
  deriving DecidableEq

/-- The protocol commands that the closure of `fullScreenshot` issues. -/
inductive Command where
  | GetLayoutMetrics
  | SetDeviceMetricsOverride (p : SetDeviceMetricsOverrideParams)
  | CaptureScreenshot (p : CaptureScreenshotParams)
  deriving DecidableEq

/-- The browser's answers to the three commands, over a browser state `σ`:
each `Do(ctx)` gives its Go results and the next state. -/
structure Cdp (σ : Type) where
  GetLayoutMetrics : σ → Except Error Rect × σ
  SetDeviceMetricsOverride : SetDeviceMetricsOverrideParams → σ → Option Error × σ
  CaptureScreenshot : CaptureScreenshotParams → σ → (Bytes × Option Error) × σ

/-- What one run of the closure leaves: the returned error (`none` is nil), the
content of `*res`, the commands issued in order, and the browser state. -/
structure Outcome (σ : Type) where
  err : Option Error
  res : Bytes
  issued : List Command
  state : σ

/-- The override request of lines 115-122 (and 155-162) for the content size
`contentSize`. -/
def overrideRequest (undef : Int) (contentSize : Rect) : SetDeviceMetricsOverrideParams :=
  let width := int64 undef (Ceil contentSize.Width)
  let height := int64 undef (Ceil contentSize.Height)
  { Width := width, Height := height, DeviceScaleFactor := .finite 1, Mobile := false,
    ScreenOrientation := { Typ := .PortraitPrimary, Angle := 0 } }

/-- The capture request of lines 129-137 (and 169-177). -/
def captureRequest (quality : Int) (contentSize : Rect) : CaptureScreenshotParams :=
  { Quality := quality,
    Clip := { X := contentSize.X, Y := contentSize.Y, Width := contentSize.Width,
              Height := contentSize.Height, Scale := .finite 1 } }

/-- The closure `func(ctx context.Context) error` of `fullScreenshot` (lines
109-142 and 149-182), run with `*res = res` in browser state `st`. -/
def fullScreenshotFunc {σ : Type} (undef : Int) (quality : Int) (cdp : Cdp σ) (st : σ)
    (res : Bytes) : Outcome σ :=
  -- get layout metrics
  match cdp.GetLayoutMetrics st with
  | (.error err, st1) => ⟨some err, res, [.GetLayoutMetrics], st1⟩
  | (.ok contentSize, st1) =>
    -- force viewport emulation
    match cdp.SetDeviceMetricsOverride (overrideRequest undef contentSize) st1 with
    | (some err, st2) =>
      ⟨some err, res,
        [.GetLayoutMetrics, .SetDeviceMetricsOverride (overrideRequest undef contentSize)], st2⟩
    | (none, st2) =>
      -- capture screenshot; `*res` is assigned before the error is tested
      match cdp.CaptureScreenshot (captureRequest quality contentSize) st2 with
      | ((buf, err), st3) =>
        ⟨err, buf,
          [.GetLayoutMetrics, .SetDeviceMetricsOverride (overrideRequest undef contentSize),
           .CaptureScreenshot (captureRequest quality contentSize)], st3⟩

/-- The answer to the override of the closure, after a metrics query that
answered `contentSize`. -/
def overrideAnswer {σ : Type} (undef : Int) (cdp : Cdp σ) (st : σ) (contentSize : Rect) :
    Option Error × σ :=
  cdp.SetDeviceMetricsOverride (overrideRequest undef contentSize) (cdp.GetLayoutMetrics st).2

/-- The answer to the capture of the closure, after the metrics query and the
override. -/
def captureAnswer {σ : Type} (undef : Int) (quality : Int) (cdp : Cdp σ) (st : σ)
    (contentSize : Rect) : (Bytes × Option Error) × σ :=
  cdp.CaptureScreenshot (captureRequest quality contentSize)
    (overrideAnswer undef cdp st contentSize).2

/-- Whether a command is a device-metrics override. -/
def Command.isOverride : Command → Bool
  | .SetDeviceMetricsOverride _ => true
  | _ => false

/-- Whether a command is a capture. -/
def Command.isCapture : Command → Bool
  | .CaptureScreenshot _ => true
  | _ => false

/-- A browser without state that answers the content size `cs`, accepts the
override and answers the capture with the bytes `png`. -/
def steadyCdp (cs : Rect) (png : Bytes) : Cdp Unit where
  GetLayoutMetrics := fun st => (.ok cs, st)
  SetDeviceMetricsOverride := fun _ st => (none, st)
  CaptureScreenshot := fun _ st => ((png, none), st)

/-- A browser without state whose three answers are given. -/
def scriptedCdp (metrics : Except Error Rect) (override : Option Error)
    (capture : Bytes × Option Error) : Cdp Unit where
  GetLayoutMetrics := fun st => (metrics, st)
  SetDeviceMetricsOverride := fun _ st => (override, st)
  CaptureScreenshot := fun _ st => (capture, st)

/-! ## The entry point -/

/-- A Go `context.Context`, as the timeouts (in nanoseconds) of the
`context.WithTimeout` derivations that lead to it, innermost first. -/
structure Context where
  timeouts : List Int
  deriving DecidableEq

/-- The context made by `chromedp.NewContext` over `context.Background()`: no
deadline. -/
def Context.Background : Context := ⟨[]⟩

/-- Go `context.WithTimeout(ctx, timeout)`. -/
def Context.WithTimeout (ctx : Context) (timeout : Int) : Context :=
  ⟨timeout :: ctx.timeouts⟩

/-- The four command-line flags, with the defaults of `main`. -/
structure Flags where
  path : String := "http://localhost:9980/"
  element : String := ".main-body"
  file : String := "screenshot.png"
  type : String := "element"

/-- What the process does to the outside. -/
inductive Event where
  | TasksDo (ctx : Context) (tasks : Tasks)
  | WriteFile (filename : String) (data : Bytes) (perm : Nat)
  deriving DecidableEq

/-- The outside of the process over a state `ω`: `Start` answers the start of
the browser that `chromedp.Run` makes before it calls its action (`none` when
the browser is up); `Do` answers `tasks.Do(ctx)` run against the browser with
the returned error and the content left in the buffer the tasks hold;
`WriteFile` answers `ioutil.WriteFile`. -/
structure World (ω : Type) where
  Start : ω → Option Error × ω
  Do : Context → Tasks → Bytes → ω → (Option Error × Bytes) × ω
  WriteFile : String → Bytes → Nat → ω → Option Error × ω

/-- The variables and the outside of the running process. -/
structure Proc (ω : Type) where
  buf : Bytes
  events : List Event
  world : ω

/-- The result of running an action: its error and the process after it. -/
structure Ran (ω : Type) where
  err : Option Error
  proc : Proc ω

/-- Go `RunWithTimeOut(ctx, timeout, tasks)`; the parameter `ctx` is shadowed by
the parameter of the returned function and never read.  The result is the
returned `chromedp.ActionFunc`, run under `ctx` on the process `p`. -/
def RunWithTimeOut {ω : Type} (w : World ω) (_ctx : Context) (timeout : Int) (tasks : Tasks) :
    Context → Proc ω → Ran ω :=
  fun ctx p =>
    let timeoutContext := ctx.WithTimeout (wrapInt64 (timeout * Second))
    match w.Do timeoutContext tasks p.buf p.world with
    | ((err, buf), world) => ⟨err, ⟨buf, p.events ++ [.TasksDo timeoutContext tasks], world⟩⟩

/-- Go `chromedp.Run(ctx, action)`: starts the browser of `ctx`; a failed
start is returned and the action is not called; after a good start the action
is run under `ctx`. -/
def Run {ω : Type} (w : World ω) (ctx : Context) (action : Context → Proc ω → Ran ω)
    (p : Proc ω) : Ran ω :=
  match w.Start p.world with
  | (some err, world) => ⟨some err, ⟨p.buf, p.events, world⟩⟩
  | (none, world) => action ctx ⟨p.buf, p.events, world⟩

/-- Go `ioutil.WriteFile(filename, data, perm)`. -/
def WriteFile {ω : Type} (w : World ω) (filename : String) (data : Bytes) (perm : Nat)
    (p : Proc ω) : Ran ω :=
  match w.WriteFile filename data perm p.world with
  | (err, world) => ⟨err, ⟨p.buf, p.events ++ [.WriteFile filename data perm], world⟩⟩

/-- Lines 50-58 of `main`: the block of the type "element".  An error result
is `log.Fatal(err)`: the process ends there with status 1. -/
def mainElement {ω : Type} (w : World ω) (f : Flags) (ctx : Context) (p : Proc ω) :
    Except (Error × Proc ω) (Proc ω) :=
  if f.type = "element" then
    -- capture screenshot of an element
    match Run w ctx (RunWithTimeOut w ctx 30 (elementScreenshot f.path f.element)) p with
    | ⟨some err, p1⟩ => .error (err, p1)
    | ⟨none, p1⟩ =>
      match WriteFile w f.file p1.buf 0o644 p1 with
      | ⟨some err, p2⟩ => .error (err, p2)
      | ⟨none, p2⟩ => .ok p2
  else .ok p

/-- Lines 59-67 of `main`: the block of the type "full". -/
def mainFull {ω : Type} (w : World ω) (f : Flags) (ctx : Context) (p : Proc ω) :
    Except (Error × Proc ω) (Proc ω) :=
  if f.type = "full" then
    -- capture entire browser viewport, returning png with quality=90
    match Run w ctx (RunWithTimeOut w ctx 30 (fullScreenshot f.path f.element 90)) p with
    | ⟨some err, p1⟩ => .error (err, p1)
    | ⟨none, p1⟩ =>
      match WriteFile w f.file p1.buf 0o644 p1 with
      | ⟨some err, p2⟩ => .error (err, p2)
      | ⟨none, p2⟩ => .ok p2
  else .ok p

/-- Go `main`, with the parsed flags `f`, started in the world state `st`:
`.ok p` is the normal return, `.error (err, p)` the exit by `log.Fatal(err)`. -/
def main {ω : Type} (w : World ω) (f : Flags) (st : ω) : Except (Error × Proc ω) (Proc ω) :=
  let ctx := Context.Background
  let buf : Bytes := []
  match mainElement w f ctx ⟨buf, [], st⟩ with
  | .error e => .error e
  | .ok p => mainFull w f ctx p

/-- The events of a run of `main`, whichever way it ended. -/
def eventsOf {ω : Type} : Except (Error × Proc ω) (Proc ω) → List Event
  | .ok p => p.events
  | .error (_, p) => p.events

/-- Whether an event is a write to a file. -/
def Event.isWrite : Event → Bool
  | .WriteFile _ _ _ => true
  | _ => false

/-- Whether an event is a run of a task list. -/
def Event.isTasksDo : Event → Bool
  | .TasksDo _ _ => true
  | _ => false

/-- A world without state where the browser starts: the tasks end with `run`
(error, buffer content) and the write ends with `write`. -/
def scriptedWorld (run : Option Error × Bytes) (write : Option Error) : World Unit where
  Start := fun st => (none, st)
  Do := fun _ _ _ st => (run, st)
  WriteFile := fun _ _ _ st => (write, st)

/-- A world without state where the browser does not start: `chromedp.Run`
gets the error `err`. -/
def noBrowserWorld (err : Error) : World Unit where
  Start := fun st => (some err, st)
  Do := fun _ _ _ st => ((none, []), st)
  WriteFile := fun _ _ _ st => (none, st)

/-! ## Helper lemmas on strings -/

theorem startsWith_iff (s p : List Char) : startsWith s p = true ↔ p <+: s := by
  induction p generalizing s with
  | nil => simp [startsWith]
  | cons b p ih =>
    cases s with
    | nil => simp [startsWith]
    | cons a s =>
      simp only [startsWith, Bool.and_eq_true, beq_iff_eq, ih, List.cons_prefix_cons]
      constructor
      · rintro ⟨h1, h2⟩
        exact ⟨h1.symm, h2⟩
      · rintro ⟨h1, h2⟩
        exact ⟨h1.symm, h2⟩

theorem occursIn_iff (s p : List Char) : occursIn s p = true ↔ p <:+: s := by
  induction s with
  | nil =>
    simp only [occursIn, startsWith_iff, List.prefix_nil, List.infix_nil]
  | cons a s ih =>
    simp only [occursIn, Bool.or_eq_true, startsWith_iff, ih, List.infix_cons_iff]

theorem Contains_iff (s substr : String) :
    Contains s substr = true ↔ substr.data <:+: s.data :=
  occursIn_iff s.data substr.data

/-! ## Helper lemmas on the task lists -/

theorem elementScreenshot_secure (u s : String) (h : Contains u "https" = true) :
    elementScreenshot u s =
      .Navigate u :: (loginActions ++
        [.WaitVisible s [.ByQuery], .Sleep (2 * Second),
         .Screenshot s [.NodeVisible, .ByQuery]]) := by
  simp [elementScreenshot, loginActions, h]

theorem elementScreenshot_plain (u s : String) (h : Contains u "https" = false) :
    elementScreenshot u s =
      [.Navigate u, .WaitVisible s [.ByQuery], .Sleep (2 * Second),
       .Screenshot s [.NodeVisible, .ByQuery]] := by
  simp [elementScreenshot, h]

theorem fullScreenshot_secure (u s : String) (q : Int) (h : Contains u "https" = true) :
    fullScreenshot u s q =
      .Navigate u :: (loginActions ++
        [.WaitVisible s [.ByQuery], .Sleep (2 * Second), .ActionFunc q]) := by
  simp [fullScreenshot, loginActions, h]

theorem fullScreenshot_plain (u s : String) (q : Int) (h : Contains u "https" = false) :
    fullScreenshot u s q =
      [.Navigate u, .WaitVisible s [.ByQuery], .Sleep (2 * Second), .ActionFunc q] := by
  simp [fullScreenshot, h]

theorem elementScreenshot_getLast (u s : String) :
    (elementScreenshot u s).getLast? = some (.Screenshot s [.NodeVisible, .ByQuery]) := by
  cases h : Contains u "https"
  · rw [elementScreenshot_plain u s h]; rfl
  · rw [elementScreenshot_secure u s h]; rfl

theorem fullScreenshot_getLast (u s : String) (q : Int) :
    (fullScreenshot u s q).getLast? = some (.ActionFunc q) := by
  cases h : Contains u "https"
  · rw [fullScreenshot_plain u s q h]; rfl
  · rw [fullScreenshot_secure u s q h]; rfl

theorem elementScreenshot_ne_fullScreenshot (u s v t : String) (q : Int) :
    elementScreenshot u s ≠ fullScreenshot v t q := by
  intro h
  have h1 := elementScreenshot_getLast u s
  rw [h, fullScreenshot_getLast] at h1
  simp at h1

/-! ## Helper lemmas on numbers -/

theorem wrapInt64_range (z : Int) : -2 ^ 63 ≤ wrapInt64 z ∧ wrapInt64 z < 2 ^ 63 := by
  unfold wrapInt64
  have h1 := Int.emod_nonneg (z + 2 ^ 63) (show (2 : Int) ^ 64 ≠ 0 by norm_num)
  have h2 := Int.emod_lt_of_pos (z + 2 ^ 63) (show (0 : Int) < 2 ^ 64 by norm_num)
  constructor <;> omega

theorem wrapInt64_of_range (z : Int) (h1 : -2 ^ 63 ≤ z) (h2 : z < 2 ^ 63) : wrapInt64 z = z := by
  unfold wrapInt64
  rw [Int.emod_eq_of_lt (by omega) (by omega)]
  omega

theorem wrapInt64_seconds_fixed (d : Int) (h1 : -2 ^ 63 ≤ d) (h2 : d < 2 ^ 63)
    (h : wrapInt64 (d * 1000000000) = d) : d = 0 := by
  unfold wrapInt64 at h
  have h4 : ((2 : Int) ^ 64) ∣ d * 999999999 := by
    have h3 : ((2 : Int) ^ 64) ∣ (d * 1000000000 + 2 ^ 63) - (d + 2 ^ 63) :=
      Int.dvd_sub_of_emod_eq (by linarith)
    have e : (d * 1000000000 + 2 ^ 63) - (d + 2 ^ 63) = d * 999999999 := by ring
    rwa [e] at h3
  have hc : IsCoprime ((2 : Int) ^ 64) 999999999 := by
    apply IsCoprime.pow_left
    rw [Int.isCoprime_iff_gcd_eq_one]
    norm_num
  obtain ⟨k, hk⟩ := hc.dvd_of_dvd_mul_right h4
  clear h h4
  omega

theorem int64_range (undef : Int) (f : Float64) :
    -2 ^ 63 ≤ int64 undef f ∧ int64 undef f < 2 ^ 63 := by
  cases f with
  | finite v =>
    simp only [int64]
    split_ifs <;> first | assumption | exact wrapInt64_range undef
  | posInf => exact wrapInt64_range undef
  | negInf => exact wrapInt64_range undef
  | nan => exact wrapInt64_range undef

theorem int64_Ceil_finite (undef : Int) (w : ℚ) (h1 : -2 ^ 63 ≤ ⌈w⌉) (h2 : ⌈w⌉ < 2 ^ 63) :
    int64 undef (Ceil (.finite w)) = ⌈w⌉ := by
  simp only [Ceil, int64, Int.floor_intCast, Int.ceil_intCast, ite_self]
  rw [if_pos ⟨h1, h2⟩]

/-! ## Helper lemmas on the closure -/

theorem func_metrics_error {σ : Type} (undef q : Int) (cdp : Cdp σ) (st : σ) (res : Bytes)
    (e : Error) (h : (cdp.GetLayoutMetrics st).1 = .error e) :
    fullScreenshotFunc undef q cdp st res =
      ⟨some e, res, [.GetLayoutMetrics], (cdp.GetLayoutMetrics st).2⟩ := by
  rcases hm : cdp.GetLayoutMetrics st with ⟨r, st1⟩
  rw [hm] at h
  simp only at h
  subst h
  simp only [fullScreenshotFunc, hm]

theorem func_override_error {σ : Type} (undef q : Int) (cdp : Cdp σ) (st : σ) (res : Bytes)
    (cs : Rect) (e : Error) (h : (cdp.GetLayoutMetrics st).1 = .ok cs)
    (ho : (overrideAnswer undef cdp st cs).1 = some e) :
    fullScreenshotFunc undef q cdp st res =
      ⟨some e, res, [.GetLayoutMetrics, .SetDeviceMetricsOverride (overrideRequest undef cs)],
        (overrideAnswer undef cdp st cs).2⟩ := by
  rcases hm : cdp.GetLayoutMetrics st with ⟨r, st1⟩
  rw [hm] at h
  simp only at h
  subst h
  rcases hov : cdp.SetDeviceMetricsOverride (overrideRequest undef cs) st1 with ⟨oe, st2⟩
  simp only [overrideAnswer, hm, hov] at ho
  subst ho
  simp only [fullScreenshotFunc, overrideAnswer, hm, hov]

theorem func_capture {σ : Type} (undef q : Int) (cdp : Cdp σ) (st : σ) (res : Bytes)
    (cs : Rect) (h : (cdp.GetLayoutMetrics st).1 = .ok cs)
    (ho : (overrideAnswer undef cdp st cs).1 = none) :
    fullScreenshotFunc undef q cdp st res =
      ⟨(captureAnswer undef q cdp st cs).1.2, (captureAnswer undef q cdp st cs).1.1,
        [.GetLayoutMetrics, .SetDeviceMetricsOverride (overrideRequest undef cs),
         .CaptureScreenshot (captureRequest q cs)],
        (captureAnswer undef q cdp st cs).2⟩ := by
  rcases hm : cdp.GetLayoutMetrics st with ⟨r, st1⟩
  rw [hm] at h
  simp only at h
  subst h
  rcases hov : cdp.SetDeviceMetricsOverride (overrideRequest undef cs) st1 with ⟨oe, st2⟩
  simp only [overrideAnswer, hm, hov] at ho
  subst ho
  simp only [fullScreenshotFunc, captureAnswer, overrideAnswer, hm, hov]

/-! ## Helper lemmas on the entry point -/

theorem timeout_thirty : wrapInt64 (30 * Second) = 30000000000 := by decide

theorem main_failed_start {ω : Type} (w : World ω) (f : Flags) (st : ω)
    (hty : f.type = "element" ∨ f.type = "full") (e : Error) (hs : (w.Start st).1 = some e) :
    main w f st = .error (e, ⟨[], [], (w.Start st).2⟩) := by
  rcases hst : w.Start st with ⟨serr, s0⟩
  rw [hst] at hs
  simp only at hs
  subst hs
  rcases hty with h | h
  · simp [main, mainElement, Run, h, hst]
  · have hne : ¬ ("full" = "element") := by decide
    simp [main, mainElement, mainFull, Run, h, hne, hst]

theorem main_started {ω : Type} (w : World ω) (f : Flags) (st : ω) (tasks : Tasks)
    (hty : (f.type = "element" ∧ tasks = elementScreenshot f.path f.element) ∨
      (f.type = "full" ∧ tasks = fullScreenshot f.path f.element 90))
    (hs : (w.Start st).1 = none) :
    main w f st =
      match w.Do (Context.Background.WithTimeout 30000000000) tasks [] (w.Start st).2 with
      | ((some e, buf), st1) =>
        .error (e, ⟨buf, [.TasksDo (Context.Background.WithTimeout 30000000000) tasks], st1⟩)
      | ((none, buf), st1) =>
        match w.WriteFile f.file buf 420 st1 with
        | (some e, st2) =>
          .error (e, ⟨buf, [.TasksDo (Context.Background.WithTimeout 30000000000) tasks,
            .WriteFile f.file buf 420], st2⟩)
        | (none, st2) =>
          .ok ⟨buf, [.TasksDo (Context.Background.WithTimeout 30000000000) tasks,
            .WriteFile f.file buf 420], st2⟩ := by
  rcases hst : w.Start st with ⟨serr, s0⟩
  rw [hst] at hs
  simp only at hs
  subst hs
  simp only
  rcases hty with ⟨h, rfl⟩ | ⟨h, rfl⟩
  · have hne : ¬ ("element" = "full") := by decide
    rcases hd : w.Do (Context.Background.WithTimeout 30000000000)
      (elementScreenshot f.path f.element) [] s0 with ⟨⟨err, buf⟩, st1⟩
    rcases hw : w.WriteFile f.file buf 420 st1 with ⟨werr, st2⟩
    cases err <;> cases werr <;>
      simp [main, mainElement, mainFull, Run, RunWithTimeOut, WriteFile, h, timeout_thirty,
        hne, hst, hd, hw]
  · have hne : ¬ ("full" = "element") := by decide
    rcases hd : w.Do (Context.Background.WithTimeout 30000000000)
      (fullScreenshot f.path f.element 90) [] s0 with ⟨⟨err, buf⟩, st1⟩
    rcases hw : w.WriteFile f.file buf 420 st1 with ⟨werr, st2⟩
    cases err <;> cases werr <;>
      simp [main, mainElement, mainFull, Run, RunWithTimeOut, WriteFile, h, timeout_thirty,
        hne, hst, hd, hw]

theorem main_other {ω : Type} (w : World ω) (f : Flags) (st : ω) (h1 : f.type ≠ "element")
    (h2 : f.type ≠ "full") : main w f st = .ok ⟨[], [], st⟩ := by
  simp only [main, mainElement, mainFull, h1, h2, if_false]

theorem run_failed_start {ω : Type} (w : World ω) (ctx : Context)
    (action : Context → Proc ω → Ran ω) (p : Proc ω) (e : Error)
    (hs : (w.Start p.world).1 = some e) :
    Run w ctx action p = ⟨some e, ⟨p.buf, p.events, (w.Start p.world).2⟩⟩ := by
  rcases hst : w.Start p.world with ⟨serr, s0⟩
  rw [hst] at hs
  simp only at hs
  subst hs
  simp only [Run, hst]

theorem run_thirty {ω : Type} (w : World ω) (c0 ctx : Context) (tasks : Tasks) (p : Proc ω)
    (hs : (w.Start p.world).1 = none) :
    Run w ctx (RunWithTimeOut w c0 30 tasks) p =
      ⟨(w.Do (ctx.WithTimeout 30000000000) tasks p.buf (w.Start p.world).2).1.1,
        ⟨(w.Do (ctx.WithTimeout 30000000000) tasks p.buf (w.Start p.world).2).1.2,
          p.events ++ [.TasksDo (ctx.WithTimeout 30000000000) tasks],
          (w.Do (ctx.WithTimeout 30000000000) tasks p.buf (w.Start p.world).2).2⟩⟩ := by
  rcases hst : w.Start p.world with ⟨serr, s0⟩
  rw [hst] at hs
  simp only at hs
  subst hs
  simp only [Run, RunWithTimeOut, timeout_thirty, hst]

theorem events_started {ω : Type} (w : World ω) (f : Flags) (st : ω) (tasks : Tasks)
    (hty : (f.type = "element" ∧ tasks = elementScreenshot f.path f.element) ∨
      (f.type = "full" ∧ tasks = fullScreenshot f.path f.element 90))
    (hs : (w.Start st).1 = none) :
    ∃ rest, eventsOf (main w f st) =
        .TasksDo (Context.Background.WithTimeout 30000000000) tasks :: rest ∧
      (rest = [] ∨ ∃ buf, rest = [.WriteFile f.file buf 420]) := by
  rw [main_started w f st tasks hty hs]
  rcases w.Do (Context.Background.WithTimeout 30000000000) tasks [] (w.Start st).2
    with ⟨⟨err, buf⟩, st1⟩
  cases err with
  | some e => exact ⟨[], rfl, Or.inl rfl⟩
  | none =>
    simp only
    rcases w.WriteFile f.file buf 420 st1 with ⟨werr, st2⟩
    cases werr <;> exact ⟨_, rfl, Or.inr ⟨buf, rfl⟩⟩

theorem events_shape {ω : Type} (w : World ω) (f : Flags) (st : ω) (tasks : Tasks)
    (hty : (f.type = "element" ∧ tasks = elementScreenshot f.path f.element) ∨
      (f.type = "full" ∧ tasks = fullScreenshot f.path f.element 90)) :
    eventsOf (main w f st) = [] ∨
    ∃ rest, eventsOf (main w f st) =
        .TasksDo (Context.Background.WithTimeout 30000000000) tasks :: rest ∧
      (rest = [] ∨ ∃ buf, rest = [.WriteFile f.file buf 420]) := by
  cases hs : (w.Start st).1 with
  | some e =>
    left
    rw [main_failed_start w f st (hty.imp And.left And.left) e hs]
    rfl
  | none => exact Or.inr (events_started w f st tasks hty hs)

/-! ## The task lists -/

/-- C1: for a URL containing "https", each of `elementScreenshot` and
`fullScreenshot` returns the list of the other branch (same navigate target,
same selector) with the four login steps, in their fixed order, put right after
the navigate step and right before the wait on the selector; for a URL without
"https" the list is navigate, wait, sleep, capture with nothing put in, so it
types nothing and holds no login step besides, at most, the wait on the
selector itself. -/
theorem login_steps_by_scheme (u s : String) (q : Int) :
    loginActions =
      [ .WaitVisible "input[type='text']" [.ByQuery],
        .SendKeys "input[type='text']" "admin" [.ByQuery],
        .WaitVisible "input[type='password']" [.ByQuery],
        .SendKeys "input[type='password']" "adminpw\t\t\n" [.ByQuery] ] ∧
    (Contains u "https" = true →
      (∃ rest : Tasks,
        (∀ v, Contains v "https" = false → elementScreenshot v s = .Navigate v :: rest) ∧
        rest.head? = some (.WaitVisible s [.ByQuery]) ∧
        elementScreenshot u s = .Navigate u :: (loginActions ++ rest)) ∧
      (∃ rest : Tasks,
        (∀ v, Contains v "https" = false → fullScreenshot v s q = .Navigate v :: rest) ∧
        rest.head? = some (.WaitVisible s [.ByQuery]) ∧
        fullScreenshot u s q = .Navigate u :: (loginActions ++ rest))) ∧
    (Contains u "https" = false →
      elementScreenshot u s =
        [.Navigate u, .WaitVisible s [.ByQuery], .Sleep (2 * Second),
         .Screenshot s [.NodeVisible, .ByQuery]] ∧
      fullScreenshot u s q =
        [.Navigate u, .WaitVisible s [.ByQuery], .Sleep (2 * Second), .ActionFunc q] ∧
      (∀ a ∈ elementScreenshot u s, a.isSendKeys = false) ∧
      (∀ a ∈ fullScreenshot u s q, a.isSendKeys = false) ∧
      (∀ a ∈ elementScreenshot u s, a ∈ loginActions → a = .WaitVisible s [.ByQuery]) ∧
      (∀ a ∈ fullScreenshot u s q, a ∈ loginActions → a = .WaitVisible s [.ByQuery])) := by
  refine ⟨rfl, fun h => ⟨⟨_, fun v hv => elementScreenshot_plain v s hv, rfl,
    elementScreenshot_secure u s h⟩, ⟨_, fun v hv => fullScreenshot_plain v s q hv, rfl,
    fullScreenshot_secure u s q h⟩⟩, fun h => ?_⟩
  rw [elementScreenshot_plain u s h, fullScreenshot_plain u s q h]
  refine ⟨rfl, rfl, ?_, ?_, ?_, ?_⟩
  · intro a ha
    simp only [List.mem_cons, List.mem_singleton, List.not_mem_nil, or_false] at ha
    rcases ha with rfl | rfl | rfl | rfl <;> rfl
  · intro a ha
    simp only [List.mem_cons, List.mem_singleton, List.not_mem_nil, or_false] at ha
    rcases ha with rfl | rfl | rfl | rfl <;> rfl
  · intro a ha hl
    simp only [List.mem_cons, List.mem_singleton, List.not_mem_nil, or_false] at ha
    rcases ha with rfl | rfl | rfl | rfl
    · simp [loginActions] at hl
    · rfl
    · simp [loginActions] at hl
    · simp [loginActions] at hl
  · intro a ha hl
    simp only [List.mem_cons, List.mem_singleton, List.not_mem_nil, or_false] at ha
    rcases ha with rfl | rfl | rfl | rfl
    · simp [loginActions] at hl
    · rfl
    · simp [loginActions] at hl
    · simp [loginActions] at hl

/-- Witness of C1 at the secure URL "https://bp/" and at the default URL. -/
theorem login_steps_by_scheme_witness :
    elementScreenshot "https://bp/" ".main-body" =
      [ .Navigate "https://bp/",
        .WaitVisible "input[type='text']" [.ByQuery],
        .SendKeys "input[type='text']" "admin" [.ByQuery],
        .WaitVisible "input[type='password']" [.ByQuery],
        .SendKeys "input[type='password']" "adminpw\t\t\n" [.ByQuery],
        .WaitVisible ".main-body" [.ByQuery],
        .Sleep 2000000000,
        .Screenshot ".main-body" [.NodeVisible, .ByQuery] ] ∧
    fullScreenshot "http://localhost:9980/" ".main-body" 90 =
      [ .Navigate "http://localhost:9980/", .WaitVisible ".main-body" [.ByQuery],
        .Sleep 2000000000, .ActionFunc 90 ] := by
  obtain ⟨_, hs, _⟩ := login_steps_by_scheme "https://bp/" ".main-body" 90
  obtain ⟨_, _, hp⟩ := login_steps_by_scheme "http://localhost:9980/" ".main-body" 90
  obtain ⟨⟨rest, hrest, _, he⟩, _⟩ := hs (by decide)
  have h0 := hrest "http://localhost:9980/" (by decide)
  refine ⟨?_, (hp (by decide)).2.1⟩
  rw [he]
  rw [elementScreenshot_plain _ _ (by decide)] at h0
  simp only [List.cons.injEq, true_and] at h0
  rw [← h0]
  rfl

/-- C2: the list of `elementScreenshot u s` starts with the navigate step to
`u` and ends with the wait on `s`, a sleep of 2 000 000 000 ns and the
screenshot of the visible node matching `s`; the screenshot is the last step
and the only one that stores into `res`. -/
theorem elementScreenshot_order (u s : String) :
    ∃ mid : Tasks,
      elementScreenshot u s =
        .Navigate u :: (mid ++
          [.WaitVisible s [.ByQuery], .Sleep 2000000000,
           .Screenshot s [.NodeVisible, .ByQuery]]) ∧
      (elementScreenshot u s).head? = some (.Navigate u) ∧
      (elementScreenshot u s).getLast? = some (.Screenshot s [.NodeVisible, .ByQuery]) ∧
      Action.writesRes (.Screenshot s [.NodeVisible, .ByQuery]) = true ∧
      (∀ a ∈ (elementScreenshot u s).dropLast, a.writesRes = false) ∧
      (∀ a ∈ .Navigate u :: (mid ++ [.WaitVisible s [.ByQuery], .Sleep 2000000000]),
        a.writesRes = false) := by
  cases h : Contains u "https"
  · refine ⟨[], ?_⟩
    rw [elementScreenshot_plain u s h]
    refine ⟨rfl, rfl, rfl, rfl, ?_, ?_⟩ <;>
    · intro a ha
      simp only [List.dropLast, List.nil_append, List.mem_cons, List.mem_singleton,
        List.not_mem_nil, or_false] at ha
      rcases ha with rfl | rfl | rfl <;> rfl
  · refine ⟨loginActions, ?_⟩
    rw [elementScreenshot_secure u s h]
    refine ⟨rfl, rfl, rfl, rfl, ?_, ?_⟩ <;>
    · intro a ha
      simp only [loginActions, List.dropLast, List.cons_append, List.nil_append, List.mem_cons,
        List.mem_singleton, List.not_mem_nil, or_false] at ha
      rcases ha with rfl | rfl | rfl | rfl | rfl | rfl | rfl <;> rfl

/-- C3: `fullScreenshot u s q` and `elementScreenshot u s` have the same
length and the same steps up to the last one: without the final capture step
both are navigate, the login steps when `u` contains "https", the wait on `s`
and the 2-second sleep. -/
theorem fullScreenshot_same_preamble (u s : String) (q : Int) :
    (fullScreenshot u s q).length = (elementScreenshot u s).length ∧
    (fullScreenshot u s q).dropLast = (elementScreenshot u s).dropLast ∧
    (elementScreenshot u s).dropLast =
      .Navigate u :: ((if Contains u "https" then loginActions else []) ++
        [.WaitVisible s [.ByQuery], .Sleep (2 * Second)]) ∧
    (∀ i, i + 1 < (elementScreenshot u s).length →
      (fullScreenshot u s q).get? i = (elementScreenshot u s).get? i) ∧
    (fullScreenshot u s q).getLast? = some (.ActionFunc q) ∧
    (elementScreenshot u s).getLast? = some (.Screenshot s [.NodeVisible, .ByQuery]) := by
  cases h : Contains u "https"
  · rw [elementScreenshot_plain u s h, fullScreenshot_plain u s q h]
    refine ⟨rfl, rfl, rfl, ?_, rfl, rfl⟩
    intro i hi
    simp only [List.length_cons, List.length_nil] at hi
    have : i = 0 ∨ i = 1 ∨ i = 2 := by omega
    rcases this with rfl | rfl | rfl <;> rfl
  · rw [elementScreenshot_secure u s h, fullScreenshot_secure u s q h]
    refine ⟨rfl, rfl, rfl, ?_, rfl, rfl⟩
    intro i hi
    simp only [loginActions, List.cons_append, List.nil_append, List.length_cons,
      List.length_nil] at hi
    have : i = 0 ∨ i = 1 ∨ i = 2 ∨ i = 3 ∨ i = 4 ∨ i = 5 ∨ i = 6 := by omega
    rcases this with rfl | rfl | rfl | rfl | rfl | rfl | rfl <;> rfl

/-! ## The closure of `fullScreenshot` -/

/-- C4 (as amended): in the final action of `fullScreenshot`, in either
branch, when the layout-metrics query answers a content size with finite width
`w` and height `h` whose roundings up fit in `int64`, the device-metrics
override is issued exactly once, right after the query and before any capture,
with width the least integer not below `w`, height the least integer not below
`h`, device scale factor 1, mobile false, orientation portrait-primary and
angle 0; so `w ≤ width`, `width - w < 1`, and `width = w` when `w` is an
integer (the same for the height). -/
theorem override_rounds_up {σ : Type} (undef q : Int) (cdp : Cdp σ) (st : σ) (res : Bytes)
    (u s : String) (cs : Rect) (w h : ℚ)
    (hm : (cdp.GetLayoutMetrics st).1 = .ok cs)
    (hw : cs.Width = .finite w) (hh : cs.Height = .finite h)
    (hwr : -2 ^ 63 ≤ ⌈w⌉ ∧ ⌈w⌉ < 2 ^ 63) (hhr : -2 ^ 63 ≤ ⌈h⌉ ∧ ⌈h⌉ < 2 ^ 63) :
    (fullScreenshot u s q).getLast? = some (.ActionFunc q) ∧
    ∃ (width height : Int) (rest : List Command),
      (fullScreenshotFunc undef q cdp st res).issued =
        .GetLayoutMetrics ::
        .SetDeviceMetricsOverride
          { Width := width, Height := height, DeviceScaleFactor := .finite 1, Mobile := false,
            ScreenOrientation := { Typ := .PortraitPrimary, Angle := 0 } } :: rest ∧
      (rest = [] ∨ rest = [.CaptureScreenshot (captureRequest q cs)]) ∧
      ((fullScreenshotFunc undef q cdp st res).issued.filter Command.isOverride).length = 1 ∧
      (w ≤ width ∧ (width : ℚ) - w < 1 ∧ (∀ n : Int, w ≤ n → width ≤ n) ∧
        (∀ n : Int, w = n → width = n)) ∧
      (h ≤ height ∧ (height : ℚ) - h < 1 ∧ (∀ n : Int, h ≤ n → height ≤ n) ∧
        (∀ n : Int, h = n → height = n)) := by
  refine ⟨fullScreenshot_getLast u s q, ⌈w⌉, ⌈h⌉, ?_⟩
  have hreq : overrideRequest undef cs =
      { Width := ⌈w⌉, Height := ⌈h⌉, DeviceScaleFactor := .finite 1, Mobile := false,
        ScreenOrientation := { Typ := .PortraitPrimary, Angle := 0 } } := by
    simp only [overrideRequest, hw, hh, int64_Ceil_finite undef w hwr.1 hwr.2,
      int64_Ceil_finite undef h hhr.1 hhr.2]
  have hnum : ∀ x : ℚ, x ≤ ⌈x⌉ ∧ ((⌈x⌉ : Int) : ℚ) - x < 1 ∧ (∀ n : Int, x ≤ n → ⌈x⌉ ≤ n) ∧
      (∀ n : Int, x = n → ⌈x⌉ = n) := by
    intro x
    refine ⟨Int.le_ceil x, ?_, fun n hn => Int.ceil_le.mpr hn, fun n hn => ?_⟩
    · have := Int.ceil_lt_add_one x
      linarith
    · rw [hn, Int.ceil_intCast]
  cases ho : (overrideAnswer undef cdp st cs).1 with
  | some e =>
    refine ⟨[], ?_, Or.inl rfl, ?_, hnum w, hnum h⟩
    · rw [func_override_error undef q cdp st res cs e hm ho, hreq]
    · rw [func_override_error undef q cdp st res cs e hm ho]
      rfl
  | none =>
    refine ⟨[.CaptureScreenshot (captureRequest q cs)], ?_, Or.inr rfl, ?_, hnum w, hnum h⟩
    · rw [func_capture undef q cdp st res cs hm ho, hreq]
    · rw [func_capture undef q cdp st res cs hm ho]
      rfl

/-- Witness of C4 (as amended) at the content size 600.5 by 800. -/
theorem override_rounds_up_witness :
    (fullScreenshotFunc 0 90
        (steadyCdp ⟨.finite 0, .finite 0, .finite (1201 / 2), .finite 800⟩ [137, 80]) ()
        []).issued =
      [ .GetLayoutMetrics,
        .SetDeviceMetricsOverride
          { Width := 601, Height := 800, DeviceScaleFactor := .finite 1, Mobile := false,
            ScreenOrientation := { Typ := .PortraitPrimary, Angle := 0 } },
        .CaptureScreenshot
          { Quality := 90,
            Clip := { X := .finite 0, Y := .finite 0, Width := .finite (1201 / 2),
                      Height := .finite 800, Scale := .finite 1 } } ] := by
  have hcw : ⌈(1201 / 2 : ℚ)⌉ = 601 := by rw [Int.ceil_eq_iff]; norm_num
  have hch : ⌈(800 : ℚ)⌉ = 800 := by rw [Int.ceil_eq_iff]; norm_num
  obtain ⟨_, width, height, rest, hi, hrest, _, hwd, hht⟩ :=
    override_rounds_up 0 90
      (steadyCdp ⟨.finite 0, .finite 0, .finite (1201 / 2), .finite 800⟩ [137, 80]) () []
      "http://localhost:9980/" ".main-body"
      ⟨.finite 0, .finite 0, .finite (1201 / 2), .finite 800⟩ (1201 / 2) 800 rfl rfl rfl
      (by rw [hcw]; norm_num) (by rw [hch]; norm_num)
  have h1 : width = 601 := by
    have h2 := hwd.2.2.1 601 (by norm_num)
    have h3 : ((1201 / 2 : ℚ)) ≤ width := hwd.1
    have h4 : (600 : ℚ) < width := by linarith
    have h5 : (600 : Int) < width := by exact_mod_cast h4
    omega
  have h2 : height = 800 := hht.2.2.2 800 (by norm_num)
  have hlen : (fullScreenshotFunc 0 90
        (steadyCdp ⟨.finite 0, .finite 0, .finite (1201 / 2), .finite 800⟩ [137, 80]) ()
        []).issued.length = 3 := rfl
  rw [hi, h1, h2]
  rcases hrest with rfl | rfl
  · rw [hi] at hlen
    simp at hlen
  · rfl

/-- Counterexample to C4 as stated: with the content width 2^63, which is a
`float64`, no platform gives an override whose width reaches the content width,
because every `int64` is below 2^63. -/
theorem override_width_below_content_width :
    ¬ ∃ (undef : Int) (p : SetDeviceMetricsOverrideParams),
      Command.SetDeviceMetricsOverride p ∈
        (fullScreenshotFunc undef 90
          (steadyCdp ⟨.finite 0, .finite 0, .finite (2 ^ 63), .finite 1⟩ []) () []).issued ∧
      (2 : ℚ) ^ 63 ≤ (p.Width : ℚ) := by
  rintro ⟨undef, p, hp, hle⟩
  rw [func_capture undef 90
    (steadyCdp ⟨.finite 0, .finite 0, .finite (2 ^ 63), .finite 1⟩ []) () []
    ⟨.finite 0, .finite 0, .finite (2 ^ 63), .finite 1⟩ rfl rfl] at hp
  simp only [List.mem_cons, List.mem_singleton, List.not_mem_nil, or_false, false_or,
    Command.SetDeviceMetricsOverride.injEq] at hp
  rcases hp with hp | hp | hp
  · exact Command.noConfusion hp
  · subst hp
    have h1 := (int64_range undef (Ceil (.finite (2 ^ 63)))).2
    have h2 : ((overrideRequest undef
        ⟨.finite 0, .finite 0, .finite (2 ^ 63), .finite 1⟩).Width : ℚ) < 2 ^ 63 := by
      simp only [overrideRequest]
      exact_mod_cast h1
    linarith
  · exact Command.noConfusion hp

/-- C5: when the layout-metrics query answers the content size `cs`, every
capture request that the final action of `fullScreenshot` issues, in either
branch, carries the quality `q` unchanged and the clip X = `cs.X`, Y = `cs.Y`,
Width = `cs.Width`, Height = `cs.Height`, Scale = 1; it is issued, once, when
the override succeeds; and the only list that `main` runs for the type "full"
is the one built with quality 90, which is run once the browser has started. -/
theorem capture_request_full_box {σ : Type} (undef q : Int) (cdp : Cdp σ) (st : σ)
    (res : Bytes) (u s : String) (cs : Rect) (hm : (cdp.GetLayoutMetrics st).1 = .ok cs) :
    (fullScreenshot u s q).getLast? = some (.ActionFunc q) ∧
    (∀ c ∈ (fullScreenshotFunc undef q cdp st res).issued, c.isCapture = true →
      c = .CaptureScreenshot
        { Quality := q,
          Clip := { X := cs.X, Y := cs.Y, Width := cs.Width, Height := cs.Height,
                    Scale := .finite 1 } }) ∧
    ((overrideAnswer undef cdp st cs).1 = none →
      (fullScreenshotFunc undef q cdp st res).issued.filter Command.isCapture =
        [ .CaptureScreenshot
            { Quality := q,
              Clip := { X := cs.X, Y := cs.Y, Width := cs.Width, Height := cs.Height,
                        Scale := .finite 1 } } ]) ∧
    (∀ (ω : Type) (w : World ω) (f : Flags) (st0 : ω), f.type = "full" →
      (fullScreenshot f.path f.element 90).getLast? = some (.ActionFunc 90) ∧
      (∀ ctx tasks, Event.TasksDo ctx tasks ∈ eventsOf (main w f st0) →
        tasks = fullScreenshot f.path f.element 90) ∧
      ((w.Start st0).1 = none →
        (eventsOf (main w f st0)).head? =
          some (.TasksDo (Context.Background.WithTimeout 30000000000)
            (fullScreenshot f.path f.element 90)))) := by
  refine ⟨fullScreenshot_getLast u s q, ?_, ?_, ?_⟩
  · intro c hc hcap
    cases ho : (overrideAnswer undef cdp st cs).1 with
    | some e =>
      rw [func_override_error undef q cdp st res cs e hm ho] at hc
      simp only [List.mem_cons, List.mem_singleton, List.not_mem_nil, or_false] at hc
      rcases hc with rfl | rfl <;> simp [Command.isCapture] at hcap
    | none =>
      rw [func_capture undef q cdp st res cs hm ho] at hc
      simp only [List.mem_cons, List.mem_singleton, List.not_mem_nil, or_false] at hc
      rcases hc with rfl | rfl | rfl
      · simp [Command.isCapture] at hcap
      · simp [Command.isCapture] at hcap
      · rfl
  · intro ho
    rw [func_capture undef q cdp st res cs hm ho]
    rfl
  · intro ω w f st0 hf
    refine ⟨fullScreenshot_getLast _ _ _, ?_, ?_⟩
    · intro ctx tasks hmem
      rcases events_shape w f st0 _ (Or.inr ⟨hf, rfl⟩) with hev | ⟨rest, hev, hrest⟩
      · rw [hev] at hmem
        simp at hmem
      · rw [hev] at hmem
        rcases hrest with rfl | ⟨buf, rfl⟩ <;>
          simp only [List.mem_cons, List.mem_singleton, List.not_mem_nil, or_false,
            Event.TasksDo.injEq] at hmem
        · exact hmem.2
        · rcases hmem with hmem | hmem
          · exact hmem.2
          · exact Event.noConfusion hmem
    · intro hs
      obtain ⟨rest, hev, _⟩ := events_started w f st0 _ (Or.inr ⟨hf, rfl⟩) hs
      rw [hev]
      rfl

/-- Witness of C5 at quality 90 and the content size 600.5 by 800 at (3, 4). -/
theorem capture_request_full_box_witness :
    (fullScreenshotFunc 0 90
        (steadyCdp ⟨.finite 3, .finite 4, .finite (1201 / 2), .finite 800⟩ [137, 80]) ()
        []).issued.filter Command.isCapture =
      [ .CaptureScreenshot
          { Quality := 90,
            Clip := { X := .finite 3, Y := .finite 4, Width := .finite (1201 / 2),
                      Height := .finite 800, Scale := .finite 1 } } ] :=
  (capture_request_full_box 0 90
    (steadyCdp ⟨.finite 3, .finite 4, .finite (1201 / 2), .finite 800⟩ [137, 80]) () []
    "https://bp/" ".main-body" ⟨.finite 3, .finite 4, .finite (1201 / 2), .finite 800⟩
    rfl).2.2.1 rfl

/-- C6: a failure at a sub-step of the final action of `fullScreenshot` ends
it with that same error: a failed metrics query issues neither the override nor
the capture, a failed override issues no capture, a failed capture returns its
error, and the action returns nil exactly when the three sub-steps succeed. -/
theorem closure_propagates_errors {σ : Type} (undef q : Int) (cdp : Cdp σ) (st : σ)
    (res : Bytes) :
    (∀ e, (cdp.GetLayoutMetrics st).1 = .error e →
      (fullScreenshotFunc undef q cdp st res).err = some e ∧
      (fullScreenshotFunc undef q cdp st res).issued = [.GetLayoutMetrics] ∧
      (fullScreenshotFunc undef q cdp st res).res = res) ∧
    (∀ cs e, (cdp.GetLayoutMetrics st).1 = .ok cs →
      (overrideAnswer undef cdp st cs).1 = some e →
      (fullScreenshotFunc undef q cdp st res).err = some e ∧
      (fullScreenshotFunc undef q cdp st res).issued =
        [.GetLayoutMetrics, .SetDeviceMetricsOverride (overrideRequest undef cs)] ∧
      (∀ c ∈ (fullScreenshotFunc undef q cdp st res).issued, c.isCapture = false) ∧
      (fullScreenshotFunc undef q cdp st res).res = res) ∧
    (∀ cs e, (cdp.GetLayoutMetrics st).1 = .ok cs →
      (overrideAnswer undef cdp st cs).1 = none →
      (captureAnswer undef q cdp st cs).1.2 = some e →
      (fullScreenshotFunc undef q cdp st res).err = some e ∧
      (fullScreenshotFunc undef q cdp st res).issued =
        [.GetLayoutMetrics, .SetDeviceMetricsOverride (overrideRequest undef cs),
         .CaptureScreenshot (captureRequest q cs)]) ∧
    ((fullScreenshotFunc undef q cdp st res).err = none ↔
      ∃ cs, (cdp.GetLayoutMetrics st).1 = .ok cs ∧
        (overrideAnswer undef cdp st cs).1 = none ∧
        (captureAnswer undef q cdp st cs).1.2 = none) := by
  refine ⟨?_, ?_, ?_, ?_⟩
  · intro e he
    rw [func_metrics_error undef q cdp st res e he]
    exact ⟨rfl, rfl, rfl⟩
  · intro cs e hm ho
    rw [func_override_error undef q cdp st res cs e hm ho]
    refine ⟨rfl, rfl, ?_, rfl⟩
    intro c hc
    simp only [List.mem_cons, List.mem_singleton, List.not_mem_nil, or_false] at hc
    rcases hc with rfl | rfl <;> rfl
  · intro cs e hm ho hc
    rw [func_capture undef q cdp st res cs hm ho]
    exact ⟨hc, rfl⟩
  · constructor
    · intro herr
      cases hm : (cdp.GetLayoutMetrics st).1 with
      | error e =>
        rw [func_metrics_error undef q cdp st res e hm] at herr
        simp at herr
      | ok cs =>
        cases ho : (overrideAnswer undef cdp st cs).1 with
        | some e =>
          rw [func_override_error undef q cdp st res cs e hm ho] at herr
          simp at herr
        | none =>
          rw [func_capture undef q cdp st res cs hm ho] at herr
          exact ⟨cs, rfl, ho, herr⟩
    · rintro ⟨cs, hm, ho, hc⟩
      rw [func_capture undef q cdp st res cs hm ho]
      exact hc

/-- Witness of C6: a browser whose override fails with "no emulation". -/
theorem closure_propagates_errors_witness :
    (fullScreenshotFunc 0 90
        (scriptedCdp (.ok ⟨.finite 0, .finite 0, .finite 640, .finite 480⟩)
          (some "no emulation") ([], none)) () [1, 2]).err = some "no emulation" ∧
    (fullScreenshotFunc 0 90
        (scriptedCdp (.ok ⟨.finite 0, .finite 0, .finite 640, .finite 480⟩)
          (some "no emulation") ([], none)) () [1, 2]).issued.length = 2 ∧
    (fullScreenshotFunc 0 90
        (scriptedCdp (.ok ⟨.finite 0, .finite 0, .finite 640, .finite 480⟩)
          (some "no emulation") ([], none)) () [1, 2]).res = [1, 2] := by
  obtain ⟨h1, h2, _, h4⟩ :=
    (closure_propagates_errors 0 90
      (scriptedCdp (.ok ⟨.finite 0, .finite 0, .finite 640, .finite 480⟩)
        (some "no emulation") ([], none)) () [1, 2]).2.1
      ⟨.finite 0, .finite 0, .finite 640, .finite 480⟩ "no emulation" rfl rfl
  refine ⟨h1, ?_, h4⟩
  rw [h2]
  rfl

/-! ## The entry point -/

/-- C7: in `main`, for the type "element" and for the type "full": when the
run of the pipeline returns an error the process ends by `log.Fatal` with that
error and no file is written; when it returns nil the buffer is written exactly
once, to the path of `-file` with permission 0644, a failed write is fatal, and
after a good write `main` returns. -/
theorem main_writes_after_success {ω : Type} (w : World ω) (f : Flags) (st : ω)
    (tasks : Tasks) (err : Option Error) (p1 : Proc ω)
    (hty : (f.type = "element" ∧ tasks = elementScreenshot f.path f.element) ∨
      (f.type = "full" ∧ tasks = fullScreenshot f.path f.element 90))
    (hrun : Run w Context.Background (RunWithTimeOut w Context.Background 30 tasks)
      ⟨[], [], st⟩ = ⟨err, p1⟩) :
    (∀ e, err = some e →
      main w f st = .error (e, p1) ∧ ∀ ev ∈ p1.events, ev.isWrite = false) ∧
    (err = none →
      (eventsOf (main w f st)).filter Event.isWrite = [.WriteFile f.file p1.buf 0o644] ∧
      (∀ e, (w.WriteFile f.file p1.buf 0o644 p1.world).1 = some e →
        ∃ p, main w f st = .error (e, p)) ∧
      ((w.WriteFile f.file p1.buf 0o644 p1.world).1 = none →
        ∃ p, main w f st = .ok p)) := by
  cases hs : (w.Start st).1 with
  | some e0 =>
    rw [run_failed_start w _ _ ⟨[], [], st⟩ e0 hs] at hrun
    simp only [Ran.mk.injEq] at hrun
    obtain ⟨herr, hp1⟩ := hrun
    subst herr
    subst hp1
    rw [main_failed_start w f st (hty.imp And.left And.left) e0 hs]
    simp
  | none =>
    rw [run_thirty w _ _ tasks ⟨[], [], st⟩ hs] at hrun
    simp only [Ran.mk.injEq, List.nil_append] at hrun
    obtain ⟨herr, hp1⟩ := hrun
    subst hp1
    simp only
    rw [main_started w f st tasks hty hs]
    rcases hd : w.Do (Context.Background.WithTimeout 30000000000) tasks [] (w.Start st).2
      with ⟨⟨derr, buf⟩, st1⟩
    rw [hd] at herr
    simp only at herr
    subst herr
    rcases hw : w.WriteFile f.file buf 420 st1 with ⟨werr, st2⟩
    cases derr <;> cases werr <;> simp [eventsOf, Event.isWrite, hw]

/-- Witness of C7: the default flags in a world where the tasks leave the
bytes 137, 80 and the write succeeds. -/
theorem main_writes_after_success_witness :
    (eventsOf (main (scriptedWorld (none, [137, 80]) none) {} ())).filter Event.isWrite =
      [.WriteFile "screenshot.png" [137, 80] 420] :=
  ((main_writes_after_success (scriptedWorld (none, [137, 80]) none) {} ()
    (elementScreenshot "http://localhost:9980/" ".main-body") none
    ⟨[137, 80], [.TasksDo (Context.Background.WithTimeout 30000000000)
      (elementScreenshot "http://localhost:9980/" ".main-body")], ()⟩
    (Or.inl ⟨rfl, rfl⟩) rfl).2 rfl).1

/-- C8: in both capture modes the action that `main` hands to `chromedp.Run`
is `RunWithTimeOut` with the value 30, which derives its context with the
timeout 30 * 1 000 000 000 ns, a product inside the `int64` range: every run of
a task list in `main` is under that context, there is exactly one once the
browser has started, and none when it has not. -/
theorem main_deadline_thirty_seconds {ω : Type} (w : World ω) (f : Flags) (st : ω)
    (hty : f.type = "element" ∨ f.type = "full") :
    ∃ tasks : Tasks,
      tasks = (if f.type = "element" then elementScreenshot f.path f.element
        else fullScreenshot f.path f.element 90) ∧
      (eventsOf (main w f st)).filter Event.isTasksDo =
        (Run w Context.Background (RunWithTimeOut w Context.Background 30 tasks)
          ⟨[], [], st⟩).proc.events ∧
      (∀ (ctx : Context) (p : Proc ω),
        (RunWithTimeOut w Context.Background 30 tasks ctx p).proc.events =
          p.events ++ [.TasksDo (ctx.WithTimeout (30 * 1000000000)) tasks]) ∧
      (∀ ev ∈ eventsOf (main w f st), ev.isTasksDo = true →
        ev = .TasksDo (Context.Background.WithTimeout (30 * 1000000000)) tasks) ∧
      ((w.Start st).1 = none →
        (eventsOf (main w f st)).filter Event.isTasksDo =
          [.TasksDo (Context.Background.WithTimeout (30 * 1000000000)) tasks]) ∧
      (∀ e, (w.Start st).1 = some e →
        (eventsOf (main w f st)).filter Event.isTasksDo = []) ∧
      wrapInt64 (30 * Second) = 30 * 1000000000 ∧
      Second = 1000000000 ∧
      -2 ^ 63 ≤ 30 * Second ∧ 30 * Second < 2 ^ 63 := by
  have hnum : wrapInt64 (30 * Second) = 30 * 1000000000 ∧ Second = 1000000000 ∧
      -2 ^ 63 ≤ 30 * Second ∧ 30 * Second < 2 ^ 63 := by decide
  have h30 : (30 * 1000000000 : Int) = 30000000000 := by norm_num
  have key : ∀ tasks : Tasks,
      ((f.type = "element" ∧ tasks = elementScreenshot f.path f.element) ∨
        (f.type = "full" ∧ tasks = fullScreenshot f.path f.element 90)) →
      (eventsOf (main w f st)).filter Event.isTasksDo =
        (Run w Context.Background (RunWithTimeOut w Context.Background 30 tasks)
          ⟨[], [], st⟩).proc.events ∧
      (∀ (ctx : Context) (p : Proc ω),
        (RunWithTimeOut w Context.Background 30 tasks ctx p).proc.events =
          p.events ++ [.TasksDo (ctx.WithTimeout (30 * 1000000000)) tasks]) ∧
      (∀ ev ∈ eventsOf (main w f st), ev.isTasksDo = true →
        ev = .TasksDo (Context.Background.WithTimeout (30 * 1000000000)) tasks) ∧
      ((w.Start st).1 = none →
        (eventsOf (main w f st)).filter Event.isTasksDo =
          [.TasksDo (Context.Background.WithTimeout (30 * 1000000000)) tasks]) ∧
      (∀ e, (w.Start st).1 = some e →
        (eventsOf (main w f st)).filter Event.isTasksDo = []) := by
    intro tasks ht
    rw [h30]
    have hstarted : (w.Start st).1 = none →
        (eventsOf (main w f st)).filter Event.isTasksDo =
          [.TasksDo (Context.Background.WithTimeout 30000000000) tasks] := by
      intro hs
      obtain ⟨rest, hev, hrest⟩ := events_started w f st tasks ht hs
      rw [hev]
      rcases hrest with rfl | ⟨buf, rfl⟩ <;> rfl
    have hfailed : ∀ e, (w.Start st).1 = some e →
        (eventsOf (main w f st)).filter Event.isTasksDo = [] := by
      intro e hs
      rw [main_failed_start w f st hty e hs]
      rfl
    refine ⟨?_, ?_, ?_, hstarted, hfailed⟩
    · cases hs : (w.Start st).1 with
      | some e =>
        rw [hfailed e hs, run_failed_start w _ _ ⟨[], [], st⟩ e hs]
      | none =>
        rw [hstarted hs, run_thirty w _ _ tasks ⟨[], [], st⟩ hs]
        rfl
    · intro ctx p
      simp only [RunWithTimeOut, timeout_thirty]
    · intro ev hev hto
      rcases events_shape w f st tasks ht with h0 | ⟨rest, h1, hrest⟩
      · rw [h0] at hev
        simp at hev
      · rw [h1] at hev
        rcases hrest with rfl | ⟨buf, rfl⟩ <;>
          simp only [List.mem_cons, List.mem_singleton, List.not_mem_nil, or_false] at hev
        · exact hev
        · rcases hev with rfl | rfl
          · rfl
          · simp [Event.isTasksDo] at hto
  rcases hty with hf | hf
  · exact ⟨elementScreenshot f.path f.element, by rw [if_pos hf],
      (key _ (Or.inl ⟨hf, rfl⟩)).1, (key _ (Or.inl ⟨hf, rfl⟩)).2.1,
      (key _ (Or.inl ⟨hf, rfl⟩)).2.2.1, (key _ (Or.inl ⟨hf, rfl⟩)).2.2.2.1,
      (key _ (Or.inl ⟨hf, rfl⟩)).2.2.2.2, hnum⟩
  · have hne : ¬ f.type = "element" := by rw [hf]; decide
    exact ⟨fullScreenshot f.path f.element 90, by rw [if_neg hne],
      (key _ (Or.inr ⟨hf, rfl⟩)).1, (key _ (Or.inr ⟨hf, rfl⟩)).2.1,
      (key _ (Or.inr ⟨hf, rfl⟩)).2.2.1, (key _ (Or.inr ⟨hf, rfl⟩)).2.2.2.1,
      (key _ (Or.inr ⟨hf, rfl⟩)).2.2.2.2, hnum⟩

/-- Witness of C8: the type "full" in a world where the tasks time out. -/
theorem main_deadline_thirty_seconds_witness :
    ∃ tasks : Tasks,
      (eventsOf (main (scriptedWorld (some "context deadline exceeded", []) none)
        { type := "full" } ())).filter Event.isTasksDo =
        [.TasksDo ⟨[30000000000]⟩ tasks] := by
  obtain ⟨tasks, _, _, _, _, h, _⟩ :=
    main_deadline_thirty_seconds (scriptedWorld (some "context deadline exceeded", []) none)
      { type := "full" } () (Or.inr rfl)
  exact ⟨tasks, h rfl⟩

/-- C9 (as amended): for every `d`, the action returned by
`RunWithTimeOut(ctx, d, tasks)` runs `tasks` under a context derived with the
timeout `d * time.Second`, that is `d` times 1 000 000 000 ns reduced to
`int64` (`d` counts seconds), and its result is the result of that run; the
timeout is `d * 1 000 000 000` when that fits in `int64`, and it is `d` itself
only for `d = 0`. -/
theorem RunWithTimeOut_counts_seconds {ω : Type} (w : World ω) (c0 ctx : Context) (d : Int)
    (tasks : Tasks) (p : Proc ω) :
    RunWithTimeOut w c0 d tasks ctx p =
      ⟨(w.Do (ctx.WithTimeout (wrapInt64 (d * 1000000000))) tasks p.buf p.world).1.1,
        ⟨(w.Do (ctx.WithTimeout (wrapInt64 (d * 1000000000))) tasks p.buf p.world).1.2,
          p.events ++ [.TasksDo (ctx.WithTimeout (wrapInt64 (d * 1000000000))) tasks],
          (w.Do (ctx.WithTimeout (wrapInt64 (d * 1000000000))) tasks p.buf p.world).2⟩⟩ ∧
    (-2 ^ 63 ≤ d * 1000000000 → d * 1000000000 < 2 ^ 63 →
      wrapInt64 (d * 1000000000) = d * 1000000000) ∧
    (-2 ^ 63 ≤ d → d < 2 ^ 63 → (wrapInt64 (d * 1000000000) = d ↔ d = 0)) := by
  refine ⟨by simp only [RunWithTimeOut, Second], wrapInt64_of_range _, ?_⟩
  intro h1 h2
  constructor
  · exact wrapInt64_seconds_fixed d h1 h2
  · rintro rfl
    decide

/-- Witness of C9 (as amended): `d = 30` gives the timeout 30 000 000 000 ns. -/
theorem RunWithTimeOut_counts_seconds_witness :
    wrapInt64 (30 * 1000000000) = 30 * 1000000000 ∧ ¬ wrapInt64 (30 * 1000000000) = 30 :=
  ⟨(RunWithTimeOut_counts_seconds (scriptedWorld (none, []) none) Context.Background
      Context.Background 30 [] ⟨[], [], ()⟩).2.1 (by decide) (by decide),
    fun h => absurd
      (((RunWithTimeOut_counts_seconds (scriptedWorld (none, []) none) Context.Background
        Context.Background 30 [] ⟨[], [], ()⟩).2.2 (by decide) (by decide)).mp h)
      (by decide)⟩

/-- Counterexample to C9 as stated: called with the duration value 30, the
action derives its context with the timeout 30 000 000 000, not 30. -/
theorem RunWithTimeOut_timeout_is_not_argument :
    (RunWithTimeOut (scriptedWorld (none, []) none) Context.Background 30 []
        Context.Background ⟨[], [], ()⟩).proc.events =
      [.TasksDo (Context.Background.WithTimeout 30000000000) []] ∧
    (RunWithTimeOut (scriptedWorld (none, []) none) Context.Background 30 []
        Context.Background ⟨[], [], ()⟩).proc.events ≠
      [.TasksDo (Context.Background.WithTimeout 30) []] := by
  decide

/-- C10 (as amended): `main` chooses by equality of the `-type` string: the
element list is run exactly when the type is "element" and the browser starts,
the full-page list with quality 90 exactly when the type is "full" and the
browser starts; when the start fails for one of these two types `main` ends by
`log.Fatal` with the start error, nothing run and nothing written; at most one
list is run; and for any other type nothing is run, nothing is written and
`main` returns. -/
theorem main_dispatch {ω : Type} (w : World ω) (f : Flags) (st : ω) :
    ((∃ ctx, Event.TasksDo ctx (elementScreenshot f.path f.element) ∈
        eventsOf (main w f st)) ↔ (f.type = "element" ∧ (w.Start st).1 = none)) ∧
    ((∃ ctx, Event.TasksDo ctx (fullScreenshot f.path f.element 90) ∈
        eventsOf (main w f st)) ↔ (f.type = "full" ∧ (w.Start st).1 = none)) ∧
    (f.type = "element" ∨ f.type = "full" → ∀ e, (w.Start st).1 = some e →
      main w f st = .error (e, ⟨[], [], (w.Start st).2⟩)) ∧
    ((eventsOf (main w f st)).filter Event.isTasksDo).length ≤ 1 ∧
    (f.type ≠ "element" → f.type ≠ "full" → main w f st = .ok ⟨[], [], st⟩) := by
  have hmem : ∀ (tasks other : Tasks),
      ((f.type = "element" ∧ tasks = elementScreenshot f.path f.element) ∨
        (f.type = "full" ∧ tasks = fullScreenshot f.path f.element 90)) →
      ((∃ ctx, Event.TasksDo ctx other ∈ eventsOf (main w f st)) ↔
        (other = tasks ∧ (w.Start st).1 = none)) ∧
      ((eventsOf (main w f st)).filter Event.isTasksDo).length ≤ 1 := by
    intro tasks other ht
    cases hs : (w.Start st).1 with
    | some e =>
      rw [main_failed_start w f st (ht.imp And.left And.left) e hs]
      simp [eventsOf]
    | none =>
      obtain ⟨rest, hev, hrest⟩ := events_started w f st tasks ht hs
      rw [hev]
      rcases hrest with rfl | ⟨buf, rfl⟩ <;> simp [Event.isTasksDo]
  by_cases h1 : f.type = "element"
  · have h2 : f.type ≠ "full" := by rw [h1]; decide
    have ha := hmem _ (elementScreenshot f.path f.element) (Or.inl ⟨h1, rfl⟩)
    have hb := hmem _ (fullScreenshot f.path f.element 90) (Or.inl ⟨h1, rfl⟩)
    refine ⟨?_, ?_, fun hty e hs => main_failed_start w f st hty e hs, ha.2,
      fun h => absurd h1 h⟩
    · rw [ha.1]
      simp [h1]
    · rw [hb.1]
      constructor
      · rintro ⟨heq, _⟩
        exact absurd heq.symm (elementScreenshot_ne_fullScreenshot _ _ _ _ _)
      · rintro ⟨hf, _⟩
        exact absurd hf h2
  · by_cases h2 : f.type = "full"
    · have ha := hmem _ (elementScreenshot f.path f.element) (Or.inr ⟨h2, rfl⟩)
      have hb := hmem _ (fullScreenshot f.path f.element 90) (Or.inr ⟨h2, rfl⟩)
      refine ⟨?_, ?_, fun hty e hs => main_failed_start w f st hty e hs, ha.2,
        fun _ h => absurd h2 h⟩
      · rw [ha.1]
        constructor
        · rintro ⟨heq, _⟩
          exact absurd heq (elementScreenshot_ne_fullScreenshot _ _ _ _ _)
        · rintro ⟨hf, _⟩
          exact absurd hf h1
      · rw [hb.1]
        simp [h2]
    · rw [main_other w f st h1 h2]
      refine ⟨?_, ?_, fun hty => ?_, by simp [eventsOf], fun _ _ => rfl⟩
      · simp [eventsOf, h1]
      · simp [eventsOf, h2]
      · rcases hty with h | h
        · exact absurd h h1
        · exact absurd h h2

/-- Witness of C10 (as amended): the types "Element", "" and "png" run
nothing, and the type "element" without a browser ends by `log.Fatal`. -/
theorem main_dispatch_witness :
    main (scriptedWorld (none, [137]) none) { type := "Element" } () = .ok ⟨[], [], ()⟩ ∧
    main (scriptedWorld (none, [137]) none) { type := "" } () = .ok ⟨[], [], ()⟩ ∧
    main (scriptedWorld (none, [137]) none) { type := "png" } () = .ok ⟨[], [], ()⟩ ∧
    main (noBrowserWorld "chrome failed to start") {} () =
      .error ("chrome failed to start", ⟨[], [], ()⟩) :=
  ⟨(main_dispatch (scriptedWorld (none, [137]) none) { type := "Element" } ()).2.2.2.2
      (by decide) (by decide),
    (main_dispatch (scriptedWorld (none, [137]) none) { type := "" } ()).2.2.2.2
      (by decide) (by decide),
    (main_dispatch (scriptedWorld (none, [137]) none) { type := "png" } ()).2.2.2.2
      (by decide) (by decide),
    (main_dispatch (noBrowserWorld "chrome failed to start") {} ()).2.2.1
      (Or.inl rfl) "chrome failed to start" rfl⟩

/-- Counterexample to C10 as stated: with the type "element" and a browser
that does not start, `chromedp.Run` returns the start error without calling its
action, so the element list is not run although the type is "element". -/
theorem main_runs_nothing_without_browser :
    ({} : Flags).type = "element" ∧
    eventsOf (main (noBrowserWorld "chrome failed to start") {} ()) = [] ∧
    ¬ ∃ ctx, Event.TasksDo ctx (elementScreenshot "http://localhost:9980/" ".main-body") ∈
      eventsOf (main (noBrowserWorld "chrome failed to start") {} ()) := by
  have h : eventsOf (main (noBrowserWorld "chrome failed to start") {} ()) = [] := by decide
  refine ⟨rfl, h, ?_⟩
  rw [h]
  simp

end Screencapture
